import Mathlib

/-!
Verification of the compose-orchestration core of the `upctl` CLI tool.

This development shallowly embeds the data transformations of:
* the port-diagnostics engine (`runDoctorChecks` in the root command file):
  parsing `[host_ip:]host_port:container_port` strings, grouping by
  listen-address key, internal-conflict detection, and host listen probes;
* the state reconciler (`RunDockerComposePs` in `cmd/dockerComposeCmd.go`):
  merging configured service names with the engine's JSON status feed into a
  sorted status table;
* the manifest synthesizer (`createTempComposeFile`): re-serialization of the
  `services`/`volumes`/`networks` sections, and the lifetime of the transient
  manifest file across the compose-consuming operations (`up`, `down`, `ps`,
  `logs`, `install`, `import-db`).

Go map iteration order is unspecified; wherever the source ranges over a map we
parameterize the embedding by an explicit enumeration order (a list), so a
single concrete run corresponds to a choice of order.  Go's `defer` runs on
normal function return but is skipped by `os.Exit`; the operation models below
record that semantics explicitly in their result values.
-/

namespace Upctl

/-- Embedding of Go's `strconv.Atoi`: an optional single leading sign followed
by at least one ASCII digit, rejecting values outside the signed 64-bit range
(Atoi reports `ErrRange` there, which the caller treats as failure). -/
def goAtoi (s : String) : Option Int :=
  let (neg, digits) :=
    match s.data with
    | '+' :: rest => (false, rest)
    | '-' :: rest => (true, rest)
    | l => (false, l)
  if digits = [] then none
  else if digits.all Char.isDigit then
    let n : Nat := digits.foldl (fun acc c => acc * 10 + (c.toNat - 48)) 0
    let v : Int := if neg then -(n : Int) else (n : Int)
    if -(2 ^ 63) ≤ v ∧ v ≤ 2 ^ 63 - 1 then some v else none
  else none

/-- Split a character list at every occurrence of `sep`, keeping empty
segments; the result always has one more segment than there are separators. -/
def splitCharList (sep : Char) : List Char → List (List Char)
  | [] => [[]]
  | c :: rest =>
      match splitCharList sep rest with
      | [] => if c = sep then [[], []] else [[c]]
      | h :: t => if c = sep then [] :: h :: t else (c :: h) :: t

/-- Embedding of Go's `strings.Split(s, ":")`: every colon separates, empty
segments are kept, and the empty string yields the single segment `""`. -/
def goSplitColon (s : String) : List String :=
  (splitCharList ':' s.data).map String.mk

/-- Outcome of parsing one port-mapping string in `runDoctorChecks`:
`strings.Split` on `":"` must yield 1, 2 or 3 segments (else the
invalid-format warning fires), and the host-port segment must pass
`strconv.Atoi` (else the non-numeric warning fires). -/
inductive PortParse where
  | invalidFormat
  | nonNumeric (hostPortStr : String)
  | ok (hostIP hostPortStr : String)
  deriving DecidableEq, Repr

/-- Whether a parse outcome is well-formed (reaches the key-registration
code rather than a warn-and-skip branch). -/
def PortParse.isOk : PortParse → Bool
  | .ok _ _ => true
  | _ => false

/-- Port-entry parser from `runDoctorChecks`: segments `[p]` and `[p, c]` take
the host port from the first segment with no bind address; `[ip, p, c]` takes
the bind address from the first and the host port from the second. -/
def parsePortEntry (portEntry : String) : PortParse :=
  match goSplitColon portEntry with
  | [p0] => if (goAtoi p0).isSome then .ok "" p0 else .nonNumeric p0
  | [p0, _] => if (goAtoi p0).isSome then .ok "" p0 else .nonNumeric p0
  | [p0, p1, _] => if (goAtoi p1).isSome then .ok p0 p1 else .nonNumeric p1
  | _ => .invalidFormat

/-- Listen-address key construction from `runDoctorChecks`:
`":" + hostPort` when no bind address was given, else `hostIP + ":" + hostPort`.
The comparison of keys is purely textual. -/
def mkListenAddress (hostIP hostPortStr : String) : String :=
  if hostIP = "" then ":" ++ hostPortStr else hostIP ++ ":" ++ hostPortStr

/-- One element of a service's `ports` list: either a YAML scalar that decoded
to a Go string, or some other value (the source warns and skips the latter). -/
inductive PortItem where
  | str (s : String)
  | nonString
  deriving DecidableEq, Repr

/-- Shape of one service's declaration as far as `runDoctorChecks` inspects it:
the service value may fail the `map[string]interface{}` assertion, may lack a
`ports` key, may have a non-list `ports` value, or carries a list of entries. -/
inductive ServiceData where
  | notMap
  | noPorts
  | portsNotList
  | ports (entries : List PortItem)
  deriving DecidableEq, Repr

/-- Warnings printed (and otherwise ignored) during port-map construction,
mirroring the `fmt.Printf` warning sites of `runDoctorChecks`. -/
inductive DoctorWarning where
  | serviceNotMap (service : String)
  | portsNotList (service : String)
  | entryNotString (service : String)
  | invalidFormat (entry service : String)
  | nonNumericPort (hostPortStr entry service : String)
  deriving DecidableEq, Repr

/-- Association-list embedding of `portToServicesMap`; keys appear in first
insertion order and each key's service list in append order. -/
abbrev PortMap := List (String × List String)

/-- Append a claiming service to a key's list, inserting the key at the end on
first claim (Go map content, order made explicit). -/
def addClaim (m : PortMap) (key svc : String) : PortMap :=
  match m with
  | [] => [(key, [svc])]
  | (k, svcs) :: rest =>
      if k = key then (k, svcs ++ [svc]) :: rest else (k, svcs) :: addClaim rest key svc

/-- Upsert into the `listenAddressToHostPort` map. -/
def putHostPort (m : List (String × String)) (key hp : String) : List (String × String) :=
  match m with
  | [] => [(key, hp)]
  | (k, v) :: rest =>
      if k = key then (k, hp) :: rest else (k, v) :: putHostPort rest key hp

/-- Lookup with default, the way a Go map read `m[k]` yields the zero value for
an absent key. -/
def lookupD {α : Type} (m : List (String × α)) (key : String) (d : α) : α :=
  match m with
  | [] => d
  | (k, v) :: rest => if k = key then v else lookupD rest key d

/-- State threaded through port-map construction: the two maps plus the
accumulated warnings. -/
structure PortScan where
  portMap : PortMap
  hostPorts : List (String × String)
  warnings : List DoctorWarning
  deriving DecidableEq, Repr

/-- Process one entry of one service's `ports` list, mirroring the inner loop
of `runDoctorChecks`: non-strings, invalid formats and non-numeric host ports
warn and leave the maps untouched; a well-formed entry registers its
listen-address key. -/
def scanPortItem (svcName : String) (st : PortScan) : PortItem → PortScan
  | .nonString => { st with warnings := st.warnings ++ [.entryNotString svcName] }
  | .str entry =>
      match parsePortEntry entry with
      | .invalidFormat =>
          { st with warnings := st.warnings ++ [.invalidFormat entry svcName] }
      | .nonNumeric hp =>
          { st with warnings := st.warnings ++ [.nonNumericPort hp entry svcName] }
      | .ok ip hp =>
          let key := mkListenAddress ip hp
          { st with
            portMap := addClaim st.portMap key svcName
            hostPorts := putHostPort st.hostPorts key hp }

/-- Process one service's declaration, mirroring the outer loop body of
`runDoctorChecks`. -/
def scanService (st : PortScan) : String × ServiceData → PortScan
  | (name, .notMap) => { st with warnings := st.warnings ++ [.serviceNotMap name] }
  | (_, .noPorts) => st
  | (name, .portsNotList) => { st with warnings := st.warnings ++ [.portsNotList name] }
  | (name, .ports entries) => entries.foldl (scanPortItem name) st

/-- Build `portToServicesMap` and `listenAddressToHostPort` by scanning the
declared services in the given enumeration order (Go ranges over the
`cfg.Services` map; the list order stands for that enumeration). -/
def buildPortMap (services : List (String × ServiceData)) : PortScan :=
  services.foldl scanService ⟨[], [], []⟩

/-- One finding line of the port-conflict analysis: the internal-conflict
report of phase 1, or a host-probe result of phase 2. -/
inductive Finding where
  | internalConflict (hostPort address : String) (services : List String)
  | hostConflict (hostPort address : String) (service : String)
  | portAvailable (hostPort address : String) (service : String)
  deriving DecidableEq, Repr

/-- Listen-address key a finding is about. -/
def Finding.address : Finding → String
  | .internalConflict _ a _ => a
  | .hostConflict _ a _ => a
  | .portAvailable _ a _ => a

/-- Whether a finding is an internal-conflict report. -/
def Finding.isInternal : Finding → Bool
  | .internalConflict _ _ _ => true
  | _ => false

/-- Whether a finding is a host-probe result (conflict or available). -/
def Finding.isProbe : Finding → Bool
  | .hostConflict _ _ _ => true
  | .portAvailable _ _ _ => true
  | _ => false

/-- Phase 1 of `runDoctorChecks`: range over `portToServicesMap` (enumeration
order `keyOrder`) and report every key claimed by more than one service. -/
def phase1Findings (st : PortScan) (keyOrder : List String) : List Finding :=
  keyOrder.filterMap fun key =>
    let svcs := lookupD st.portMap key []
    if svcs.length > 1 then
      some (.internalConflict (lookupD st.hostPorts key "") key svcs)
    else none

/-- Phase 2 of `runDoctorChecks`: range over `portToServicesMap` again
(independent enumeration order), skip internally conflicted keys, and probe the
rest with `net.Listen`.  The probe outcome is a parameter: `some reason` means
the listen failed (for whatever OS-level reason), `none` means it succeeded and
was immediately released. -/
def phase2Findings (st : PortScan) (keyOrder : List String)
    (probe : String → Option String) : List Finding :=
  keyOrder.filterMap fun key =>
    let svcs := lookupD st.portMap key []
    if svcs.length > 1 then none
    else
      match probe key with
      | some _ => some (.hostConflict (lookupD st.hostPorts key "") key (svcs.headD ""))
      | none => some (.portAvailable (lookupD st.hostPorts key "") key (svcs.headD ""))

/-- Whole port-conflict analysis with explicit enumeration orders of the key
map for its two phases (Go randomizes each `range` independently). -/
def portAnalysisOrdered (services : List (String × ServiceData))
    (keyOrder1 keyOrder2 : List String) (probe : String → Option String) : List Finding :=
  let st := buildPortMap services
  phase1Findings st keyOrder1 ++ phase2Findings st keyOrder2 probe

/-- Keys of the port map in first-insertion order. -/
def portKeys (st : PortScan) : List String :=
  st.portMap.map Prod.fst

/-- Port-conflict analysis with the canonical (first-insertion) key order in
both phases; one particular run of the source corresponds to some choice of
orders in `portAnalysisOrdered`. -/
def portAnalysis (services : List (String × ServiceData))
    (probe : String → Option String) : List Finding :=
  portAnalysisOrdered services (portKeys (buildPortMap services))
    (portKeys (buildPortMap services)) probe

/-- Result of `viper.ReadInConfig` as branched on by `runDoctorChecks`. -/
inductive ConfigReadResult where
  | notFound
  | unreadable
  | ok
  deriving DecidableEq, Repr

/-- Environment of one `doctor` run: outcome of the config read, of the
structure unmarshal, the declared services (`none` embeds a nil `Services`
map), and the host-probe outcomes. -/
structure DoctorEnv where
  readResult : ConfigReadResult
  unmarshalOk : Bool
  services : Option (List (String × ServiceData))
  probe : String → Option String

/-- Result of one `doctor` run: the findings of the port analysis and the
process exit taken by the function itself (`none` = it returned normally;
`runDoctorChecks` contains no `os.Exit` call, every abort is a plain
`return`). -/
structure DoctorResult where
  findings : List Finding
  exit : Option Nat

/-- Control flow of `runDoctorChecks`: unreadable or unparsable configuration
and a nil/absent `services` key return early (normally, with no findings);
otherwise the two-phase port analysis runs.  An empty (but non-nil) services
map prints an info line and still reaches the analysis, which then has nothing
to report. -/
def runDoctorChecksM (env : DoctorEnv) : DoctorResult :=
  if env.readResult ≠ .ok then ⟨[], none⟩
  else if ¬env.unmarshalOk then ⟨[], none⟩
  else
    match env.services with
    | none => ⟨[], none⟩
    | some svcs =>
        if svcs.length > 0 then ⟨portAnalysis svcs env.probe, none⟩
        else ⟨[], none⟩

/-- Generic upsert into a string-keyed association list, modelling Go map
assignment `m[k] = v` (content plus first-insertion key order). -/
def putAssoc {α : Type} (m : List (String × α)) (key : String) (v : α) : List (String × α) :=
  match m with
  | [] => [(key, v)]
  | (k, w) :: rest =>
      if k = key then (k, v) :: rest else (k, w) :: putAssoc rest key v

/-- Optional lookup in a string-keyed association list, modelling the
two-result Go map read `v, ok := m[k]`. -/
def lookupA {α : Type} (m : List (String × α)) (key : String) : Option α :=
  match m with
  | [] => none
  | (k, v) :: rest => if k = key then some v else lookupA rest key

/-- One published-port descriptor of a `docker compose ps --format json`
record (the `Publishers` field). -/
structure Publisher where
  url : String
  targetPort : Int
  publishedPort : Int
  protocol : String
  deriving DecidableEq, Repr

/-- Fields of one JSON status record (`DockerPsJSONEntry`) that the reconciler
reads. -/
structure PsEntry where
  name : String
  image : String
  command : String
  service : String
  state : String
  status : String
  publishers : List Publisher
  deriving DecidableEq, Repr

/-- One line of the engine's line-delimited JSON output as the scanner sees
it: blank (skipped silently), unparsable JSON (warned and skipped), or a
decoded record. -/
inductive PsLine where
  | blank
  | malformed
  | entry (e : PsEntry)
  deriving DecidableEq, Repr

/-- One step of building `runningServicesDetails`: blank and malformed lines
contribute nothing, records with an empty `Service` field are dropped, and a
later record for the same service overwrites an earlier one. -/
def psFoldStep (m : List (String × PsEntry)) (l : PsLine) : List (String × PsEntry) :=
  match l with
  | .blank => m
  | .malformed => m
  | .entry e => if e.service = "" then m else putAssoc m e.service e

/-- Build `runningServicesDetails` from the scanned lines. -/
def collectRunning (feed : List PsLine) : List (String × PsEntry) :=
  feed.foldl psFoldStep []

/-- Service names occurring in the decoded records of the feed. -/
def feedNames (feed : List PsLine) : List String :=
  feed.filterMap fun l =>
    match l with
    | .entry e => some e.service
    | _ => none

/-- Join strings with a separator, as Go's `strings.Join`. -/
def joinSep (sep : String) : List String → String
  | [] => ""
  | [s] => s
  | s :: rest => s ++ sep ++ joinSep sep rest

/-- Truncation helper matching the pattern
`if len(s) > limit { s = s[:keep] + "..." }`; lengths are counted in
characters where Go counts bytes, which agrees on ASCII data. -/
def truncAt (s : String) (limit keep : Nat) : String :=
  if s.length > limit then String.mk (s.data.take keep) ++ "..." else s

/-- Published-ports column: each publisher renders as
`url:published->target/protocol` with an empty or `"::"` URL displayed as
`0.0.0.0`; an empty join renders as `"-"`. -/
def formatPorts (pubs : List Publisher) : String :=
  let strs := pubs.map fun p =>
    let url := if p.url = "" ∨ p.url = "::" then "0.0.0.0" else p.url
    url ++ ":" ++ toString p.publishedPort ++ "->" ++ toString p.targetPort ++ "/" ++ p.protocol
  let s := joinSep ", " strs
  if s.length = 0 then "-" else s

/-- One printed row of the combined status table. -/
structure StatusRow where
  configService : String
  status : String
  name : String
  image : String
  command : String
  psService : String
  state : String
  ports : String
  deriving DecidableEq, Repr

/-- Row construction from `RunDockerComposePs`: a service with a live record
renders `Running` with the record's (possibly truncated) details, and a
service without one renders `Not Running` with `-` placeholders. -/
def mkRow (running : List (String × PsEntry)) (serviceName : String) : StatusRow :=
  match lookupA running serviceName with
  | some details =>
      let portsStr := formatPorts details.publishers
      let commandStr :=
        let c := truncAt details.command 20 17
        if c = "" then "-" else c
      let imageStr := truncAt details.image 24 21
      let psState := truncAt (if details.state = "" then details.status else details.state) 17 14
      ⟨serviceName, "Running", details.name, imageStr, commandStr, details.service, psState, portsStr⟩
  | none => ⟨serviceName, "Not Running", "-", "-", "-", "-", "-", "-"⟩

/-- Selection of the services to display: with arguments, the arguments that
are also configured (in argument order); without arguments, every configured
service name. -/
def servicesToDisplay (cfgNames args : List String) : List String :=
  if args.length > 0 then args.filter (fun a => cfgNames.contains a)
  else cfgNames

/-- Sort by name as `sort.Strings` does (ascending lexicographic order). -/
def sortNames (l : List String) : List String :=
  l.insertionSort (· ≤ ·)

/-- Informational and warning lines the reconciler prints besides the table. -/
inductive PsNote where
  | engineQueryError
  | jsonParseWarning
  | notInConfigInfo (service : String)
  deriving DecidableEq, Repr

/-- Environment of one `ps` run: the configured service names (in the
enumeration order of the `Services` map), the caller-requested names, whether
the transient manifest could be created, whether the engine invocation
returned an error, and the output lines it produced either way. -/
structure PsEnv where
  cfgNames : List String
  args : List String
  tempCreateOk : Bool
  captureErr : Bool
  feed : List PsLine

/-- Result of one `ps` run: the exit taken (`none` = normal return), the
notes printed, the table rows in print order, and whether the transient
manifest was removed. -/
structure PsResult where
  exit : Option Nat
  notes : List PsNote
  rows : List StatusRow
  tempRemoved : Bool
  deriving DecidableEq, Repr

/-- Control flow of `RunDockerComposePs`: a manifest-creation failure exits
with status 1 (skipping the not-yet-registered deferred removal); an engine
invocation error only adds a note; the output lines are folded into the
running-details map with a warning per unparsable line; requested names
missing from configuration add an info note each; the retained names are
sorted and rendered.  The function then returns normally, running the
deferred manifest removal. -/
def runDockerComposePsM (env : PsEnv) : PsResult :=
  if ¬env.tempCreateOk then ⟨some 1, [], [], false⟩
  else
    let engineNotes : List PsNote := if env.captureErr then [.engineQueryError] else []
    let parseNotes : List PsNote :=
      env.feed.filterMap fun l =>
        match l with
        | .malformed => some .jsonParseWarning
        | _ => none
    let infoNotes : List PsNote :=
      if env.args.length > 0 then
        env.args.filterMap fun a =>
          if env.cfgNames.contains a then none else some (.notInConfigInfo a)
      else []
    let running := collectRunning env.feed
    let rows := (sortNames (servicesToDisplay env.cfgNames env.args)).map (mkRow running)
    ⟨none, engineNotes ++ parseNotes ++ infoNotes, rows, true⟩

/-- Environment of one compose-consuming operation (`up`, `down`, `logs`,
`install`): whether `createTempComposeFile` succeeds, whether the follow-up
`viper.Unmarshal` succeeds (`install` only), whether the requested service is
declared (`install` only), the outcome of the main `docker compose`
invocation, and the command-line inputs. -/
structure OpEnv where
  tempCreateOk : Bool
  unmarshalOk : Bool
  serviceInConfig : Bool
  execOk : Bool
  args : List String
  allFlag : Bool
  deriving DecidableEq, Repr

/-- Observable outcome of one operation for the manifest lifetime: the exit
taken (`none` = the function returned normally), whether the transient
manifest file was created, and whether it was removed.  Per Go semantics a
`defer`red call runs when the surrounding function returns, but `os.Exit`
terminates the process immediately without running deferred calls; the
results below record exactly that. -/
structure OpResult where
  exit : Option Nat
  tempCreated : Bool
  tempRemoved : Bool
  deriving DecidableEq, Repr

/-- Manifest lifetime of `RunDockerComposeUp`: creation failure exits 1
before the file exists; after creation, `defer os.Remove` is registered, so a
normal return removes the file, while the `os.Exit(1)` taken on a compose
failure skips the deferred removal. -/
def runDockerComposeUpM (env : OpEnv) : OpResult :=
  if ¬env.tempCreateOk then ⟨some 1, false, false⟩
  else if env.execOk then ⟨none, true, true⟩
  else ⟨some 1, true, false⟩

/-- Manifest lifetime of `RunDockerComposeDown`; same structure as `up`. -/
def runDockerComposeDownM (env : OpEnv) : OpResult :=
  if ¬env.tempCreateOk then ⟨some 1, false, false⟩
  else if env.execOk then ⟨none, true, true⟩
  else ⟨some 1, true, false⟩

/-- Manifest lifetime of `RunDockerComposeLogs`; same structure as `up`. -/
def runDockerComposeLogsM (env : OpEnv) : OpResult :=
  if ¬env.tempCreateOk then ⟨some 1, false, false⟩
  else if env.execOk then ⟨none, true, true⟩
  else ⟨some 1, true, false⟩

/-- Manifest lifetime of `RunDockerComposeInstall`: the argument check runs
before manifest creation; the config unmarshal, the declared-service check
and the compose invocation all run after it, and each failure among them
calls `os.Exit(1)`, skipping the deferred removal. -/
def runDockerComposeInstallM (env : OpEnv) : OpResult :=
  if ¬(env.args.length > 0 ∨ env.allFlag) then ⟨some 1, false, false⟩
  else if ¬env.tempCreateOk then ⟨some 1, false, false⟩
  else if ¬env.unmarshalOk then ⟨some 1, true, false⟩
  else if env.args.length > 0 then
    if ¬env.serviceInConfig then ⟨some 1, true, false⟩
    else if env.execOk then ⟨none, true, true⟩
    else ⟨some 1, true, false⟩
  else if env.execOk then ⟨none, true, true⟩
  else ⟨some 1, true, false⟩

/-- Manifest lifetime of `RunDockerComposePs`: after the manifest exists the
function never calls `os.Exit`, so the deferred removal always runs. -/
def psOpResult (env : PsEnv) : OpResult :=
  let r := runDockerComposePsM env
  ⟨r.exit, env.tempCreateOk, r.tempRemoved⟩

/-- Environment of one `import-db` run (`RunDockerImportDB`): the outcomes of
manifest creation, of starting the MySQL service, the presence of the local
dump file, the outcomes of the download steps taken only when it is absent
(`tsh` lookup, Teleport login, AWS app login, S3 copy), the container-id
query and its trimmed output, and the outcomes of the copy, import and
cleanup commands. -/
structure ImportEnv where
  tempCreateOk : Bool
  mysqlUpOk : Bool
  dbFileExists : Bool
  tshFound : Bool
  teleportLoginOk : Bool
  awsLoginOk : Bool
  s3DownloadOk : Bool
  containerIdOk : Bool
  containerId : String
  copyOk : Bool
  importOk : Bool
  cleanupOk : Bool
  deriving DecidableEq, Repr

/-- Manifest lifetime of `RunDockerImportDB`: creation failure exits 1 before
the file exists; every later failure terminates through `os.Exit` — status 1
for the compose/`tsh`-lookup/container/copy/import failures and status 2 for
the Teleport, AWS and S3 failures — skipping the deferred removal.  The
download block runs only when the dump file is absent, so its four checks are
guarded by `¬dbFileExists` (within the block each check presupposes the
previous ones passed, which the if-chain order preserves).  A cleanup
failure only prints a warning, after which the function returns normally and
the deferred removal runs. -/
def runDockerImportDBM (env : ImportEnv) : OpResult :=
  if ¬env.tempCreateOk then ⟨some 1, false, false⟩
  else if ¬env.mysqlUpOk then ⟨some 1, true, false⟩
  else if ¬env.dbFileExists ∧ ¬env.tshFound then ⟨some 1, true, false⟩
  else if ¬env.dbFileExists ∧ ¬env.teleportLoginOk then ⟨some 2, true, false⟩
  else if ¬env.dbFileExists ∧ ¬env.awsLoginOk then ⟨some 2, true, false⟩
  else if ¬env.dbFileExists ∧ ¬env.s3DownloadOk then ⟨some 2, true, false⟩
  else if ¬env.containerIdOk then ⟨some 1, true, false⟩
  else if env.containerId = "" then ⟨some 1, true, false⟩
  else if ¬env.copyOk then ⟨some 1, true, false⟩
  else if ¬env.importOk then ⟨some 1, true, false⟩
  else ⟨none, true, true⟩

/-- Minimal YAML value tree for the synthesized manifest. -/
inductive Yaml where
  | scalar (s : String)
  | seq (items : List Yaml)
  | map (entries : List (String × Yaml))

/-- Shape of the loaded configuration document as `createTempComposeFile`
sees it: each of the three compose sections is either absent from the
document or present as a mapping (its contents are opaque pass-through). -/
structure ConfigDoc where
  services : Option (List (String × Yaml))
  volumes : Option (List (String × Yaml))
  networks : Option (List (String × Yaml))

/-- State of the `DockerComposeConfig` Go struct: a `none` section embeds a
nil Go map. -/
structure GoComposeStruct where
  services : Option (List (String × Yaml))
  volumes : Option (List (String × Yaml))
  networks : Option (List (String × Yaml))

/-- Population of `dockerComposeConfig` in `createTempComposeFile`:
`viper.Unmarshal` fills each field from the document, leaving absent sections
as nil maps; only on unmarshal failure are nil fields replaced by empty maps;
then the `viper.IsSet` branches re-assign every section present in the
document. -/
def loadComposeStruct (doc : ConfigDoc) (unmarshalOk : Bool) : GoComposeStruct :=
  let base : GoComposeStruct :=
    if unmarshalOk then ⟨doc.services, doc.volumes, doc.networks⟩
    else ⟨some (doc.services.getD []), some (doc.volumes.getD []), some (doc.networks.getD [])⟩
  ⟨if doc.services.isSome then doc.services else base.services,
   if doc.volumes.isSome then doc.volumes else base.volumes,
   if doc.networks.isSome then doc.networks else base.networks⟩

/-- Encoding of `yaml.Marshal(dockerComposeConfig)` (gopkg.in/yaml.v3 on the
`DockerComposeConfig` struct): struct fields are emitted in declaration order
under their `yaml` tags; none of the three fields carries `omitempty`, so all
three keys are always emitted; a nil Go map encodes as an empty mapping.  The
struct declares no version field, so no version key can appear. -/
def marshalComposeConfig (c : GoComposeStruct) : Yaml :=
  .map [("services", .map (c.services.getD [])),
        ("volumes", .map (c.volumes.getD [])),
        ("networks", .map (c.networks.getD []))]

/-- Content written to the transient manifest by `createTempComposeFile`. -/
def createTempComposeFileContent (doc : ConfigDoc) (unmarshalOk : Bool) : Yaml :=
  marshalComposeConfig (loadComposeStruct doc unmarshalOk)

/-- Top-level keys of a YAML document (empty for non-mappings). -/
def topLevelKeys : Yaml → List String
  | .map entries => entries.map Prod.fst
  | _ => []

/-- Top-level value under a key of a YAML mapping. -/
def topLevelValue (y : Yaml) (key : String) : Option Yaml :=
  match y with
  | .map entries => lookupA entries key
  | _ => none

/-!  Theorems about the claims, in claim order. -/

theorem lookupD_of_not_mem {α : Type} {m : List (String × α)} {key : String} (d : α)
    (h : key ∉ m.map Prod.fst) : lookupD m key d = d := by
  induction m with
  | nil => rfl
  | cons p rest ih =>
      simp only [List.map_cons, List.mem_cons, not_or] at h
      simp only [lookupD]
      rw [if_neg (fun hk => h.1 hk.symm)]
      exact ih h.2

theorem mem_keys_of_claimers_ne_nil {st : PortScan} {key : String}
    (h : lookupD st.portMap key [] ≠ []) : key ∈ portKeys st := by
  by_contra hmem
  exact h (lookupD_of_not_mem [] hmem)

theorem mem_phase1 {st : PortScan} {ko : List String} {key : String}
    (hk : key ∈ ko) (hlen : (lookupD st.portMap key []).length > 1) :
    Finding.internalConflict (lookupD st.hostPorts key "") key (lookupD st.portMap key []) ∈
      phase1Findings st ko := by
  simp only [phase1Findings, List.mem_filterMap]
  exact ⟨key, hk, by rw [if_pos hlen]⟩

theorem phase1_mem_elim {st : PortScan} {ko : List String} {f : Finding}
    (h : f ∈ phase1Findings st ko) :
    ∃ key ∈ ko, (lookupD st.portMap key []).length > 1 ∧
      f = Finding.internalConflict (lookupD st.hostPorts key "") key
        (lookupD st.portMap key []) := by
  simp only [phase1Findings, List.mem_filterMap] at h
  obtain ⟨key, hk, hf⟩ := h
  by_cases hlen : (lookupD st.portMap key []).length > 1
  · rw [if_pos hlen] at hf
    exact ⟨key, hk, hlen, (Option.some_inj.mp hf).symm⟩
  · rw [if_neg hlen] at hf
    exact absurd hf (by simp)

theorem phase2_mem_elim {st : PortScan} {ko : List String} {probe : String → Option String}
    {f : Finding} (h : f ∈ phase2Findings st ko probe) :
    ∃ key ∈ ko, ¬(lookupD st.portMap key []).length > 1 ∧ f.isProbe = true ∧
      f.address = key := by
  simp only [phase2Findings, List.mem_filterMap] at h
  obtain ⟨key, hk, hf⟩ := h
  by_cases hlen : (lookupD st.portMap key []).length > 1
  · rw [if_pos hlen] at hf
    exact absurd hf (by simp)
  · rw [if_neg hlen] at hf
    refine ⟨key, hk, hlen, ?_⟩
    cases hpk : probe key <;> rw [hpk] at hf <;>
      exact (Option.some_inj.mp hf) ▸ ⟨rfl, rfl⟩

theorem hostConflict_mem_phase2 {st : PortScan} {ko : List String}
    {probe : String → Option String} {key reason : String} (hk : key ∈ ko)
    (hlen : ¬(lookupD st.portMap key []).length > 1) (hp : probe key = some reason) :
    Finding.hostConflict (lookupD st.hostPorts key "") key
        ((lookupD st.portMap key []).headD "") ∈ phase2Findings st ko probe := by
  simp only [phase2Findings, List.mem_filterMap]
  exact ⟨key, hk, by rw [if_neg hlen, hp]⟩

theorem portAvailable_mem_phase2 {st : PortScan} {ko : List String}
    {probe : String → Option String} {key : String} (hk : key ∈ ko)
    (hlen : ¬(lookupD st.portMap key []).length > 1) (hp : probe key = none) :
    Finding.portAvailable (lookupD st.hostPorts key "") key
        ((lookupD st.portMap key []).headD "") ∈ phase2Findings st ko probe := by
  simp only [phase2Findings, List.mem_filterMap]
  exact ⟨key, hk, by rw [if_neg hlen, hp]⟩

/-- C2, counterexample: with the manifest created and the compose invocation
failing, `RunDockerComposeUp` exits with status 1 via `os.Exit`, and the
transient manifest is not removed — the deferred removal is skipped, so the
claim that every fatal (nonzero-exit) path deletes the manifest is false. -/
theorem c2_counterexample :
    (runDockerComposeUpM ⟨true, true, true, false, ["mysql"], false⟩).exit = some 1 ∧
    (runDockerComposeUpM ⟨true, true, true, false, ["mysql"], false⟩).tempCreated = true ∧
    (runDockerComposeUpM ⟨true, true, true, false, ["mysql"], false⟩).tempRemoved = false := by
  decide

set_option maxHeartbeats 1600000 in
/-- C2, amended: across the six compose-consuming operations (`up`, `down`,
`ps`, `logs`, `install`, `import`), once the transient manifest has been
created it is removed exactly on the paths where the operation returns
normally; fatal-error paths terminate through `os.Exit` (status 1, or
status 2 on the import operation's Teleport/AWS/S3 failures), which skips
the deferred removal, so the manifest survives there. -/
theorem c2_manifest_removed_iff_normal_return (env : OpEnv) (penv : PsEnv)
    (ienv : ImportEnv) :
    ((runDockerComposeUpM env).tempCreated = true →
      ((runDockerComposeUpM env).tempRemoved = true ↔ (runDockerComposeUpM env).exit = none)) ∧
    ((runDockerComposeDownM env).tempCreated = true →
      ((runDockerComposeDownM env).tempRemoved = true ↔ (runDockerComposeDownM env).exit = none)) ∧
    ((runDockerComposeLogsM env).tempCreated = true →
      ((runDockerComposeLogsM env).tempRemoved = true ↔ (runDockerComposeLogsM env).exit = none)) ∧
    ((runDockerComposeInstallM env).tempCreated = true →
      ((runDockerComposeInstallM env).tempRemoved = true ↔ (runDockerComposeInstallM env).exit = none)) ∧
    ((psOpResult penv).tempCreated = true →
      ((psOpResult penv).tempRemoved = true ↔ (psOpResult penv).exit = none)) ∧
    ((runDockerImportDBM ienv).tempCreated = true →
      ((runDockerImportDBM ienv).tempRemoved = true ↔ (runDockerImportDBM ienv).exit = none)) := by
  refine ⟨?_, ?_, ?_, ?_, ?_, ?_⟩
  · simp only [runDockerComposeUpM]
    split_ifs <;> simp
  · simp only [runDockerComposeDownM]
    split_ifs <;> simp
  · simp only [runDockerComposeLogsM]
    split_ifs <;> simp
  · simp only [runDockerComposeInstallM]
    split_ifs <;> simp
  · simp only [psOpResult, runDockerComposePsM]
    split_ifs <;> simp
  · simp only [runDockerImportDBM]
    split_ifs <;> simp

/-- C2, witness: the amended theorem applied to a successful `up` run and a
successful `import-db` run (dump already present, all steps succeeding). -/
theorem c2_manifest_removed_iff_normal_return_witness :
    (runDockerComposeUpM ⟨true, true, true, true, ["mysql"], false⟩).tempCreated = true ∧
    (runDockerComposeUpM ⟨true, true, true, true, ["mysql"], false⟩).tempRemoved = true ∧
    (runDockerImportDBM ⟨true, true, true, true, true, true, true, true, "c1f2", true, true,
      true⟩).tempRemoved = true := by
  refine ⟨by decide, ?_, ?_⟩
  · exact ((c2_manifest_removed_iff_normal_return ⟨true, true, true, true, ["mysql"], false⟩
      ⟨["web"], [], true, false, []⟩
      ⟨true, true, true, true, true, true, true, true, "c1f2", true, true, true⟩).1
      (by decide)).mpr (by decide)
  · exact ((c2_manifest_removed_iff_normal_return ⟨true, true, true, true, ["mysql"], false⟩
      ⟨["web"], [], true, false, []⟩
      ⟨true, true, true, true, true, true, true, true, "c1f2", true, true,
        true⟩).2.2.2.2.2 (by decide)).mpr (by decide)

/-- C3, counterexample: for a document that omits `volumes` and `networks`
entirely, the synthesized manifest still contains both top-level keys
(the struct's yaml tags carry no `omitempty`), refuting the claim that the
keys are absent. -/
theorem c3_counterexample :
    "volumes" ∈ topLevelKeys (createTempComposeFileContent
        ⟨some [("web", .map [("image", .scalar "nginx")])], none, none⟩ true) ∧
    "networks" ∈ topLevelKeys (createTempComposeFileContent
        ⟨some [("web", .map [("image", .scalar "nginx")])], none, none⟩ true) := by
  constructor <;> simp [createTempComposeFileContent, marshalComposeConfig, loadComposeStruct,
    topLevelKeys]

/-- C3, amended: for every configuration document the synthesized manifest
has exactly the top-level keys `services`, `volumes`, `networks` (in that
order) and no top-level version marker; when the document omits `volumes`
(resp. `networks`) the corresponding key is emitted with an empty mapping as
its value rather than being dropped. -/
theorem c3_synthesized_manifest_keys (doc : ConfigDoc) (unmarshalOk : Bool) :
    topLevelKeys (createTempComposeFileContent doc unmarshalOk) =
      ["services", "volumes", "networks"] ∧
    "version" ∉ topLevelKeys (createTempComposeFileContent doc unmarshalOk) ∧
    (doc.volumes = none →
      topLevelValue (createTempComposeFileContent doc unmarshalOk) "volumes" =
        some (Yaml.map [])) ∧
    (doc.networks = none →
      topLevelValue (createTempComposeFileContent doc unmarshalOk) "networks" =
        some (Yaml.map [])) := by
  refine ⟨rfl, ?_, ?_, ?_⟩
  · simp [createTempComposeFileContent, marshalComposeConfig, topLevelKeys]
  all_goals intro h
  all_goals cases unmarshalOk <;>
    simp [createTempComposeFileContent, marshalComposeConfig, loadComposeStruct, topLevelValue,
      lookupA, h]

/-- C3, witness: the amended theorem applied to a document with only a
`services` section. -/
theorem c3_synthesized_manifest_keys_witness :
    topLevelValue (createTempComposeFileContent
        ⟨some [("web", .map [("image", .scalar "nginx")])], none, none⟩ true) "volumes" =
      some (Yaml.map []) := by
  exact (c3_synthesized_manifest_keys
    ⟨some [("web", .map [("image", .scalar "nginx")])], none, none⟩ true).2.2.1 rfl

/-- C6, counterexample: the doctor's findings follow the (unspecified) map
enumeration order.  For a fixed two-service configuration and fixed probe
outcomes, two legitimate enumeration orders of the same listen-address keys
produce the findings in different orders, and the canonical run lists the
finding for service `b` before the one for service `a` — not ordered by
service name — refuting the claimed deterministic service-name ordering. -/
theorem c6_counterexample :
    (portKeys (buildPortMap
        [("b", .ports [.str "8080:80"]), ("a", .ports [.str "9090:90"])])).Perm
      [":9090", ":8080"] ∧
    portAnalysisOrdered [("b", .ports [.str "8080:80"]), ("a", .ports [.str "9090:90"])]
        [":8080", ":9090"] [":8080", ":9090"] (fun _ => none) ≠
      portAnalysisOrdered [("b", .ports [.str "8080:80"]), ("a", .ports [.str "9090:90"])]
        [":9090", ":8080"] [":9090", ":8080"] (fun _ => none) ∧
    portAnalysis [("b", .ports [.str "8080:80"]), ("a", .ports [.str "9090:90"])]
        (fun _ => none) =
      [.portAvailable "8080" ":8080" "b", .portAvailable "9090" ":9090" "a"] := by
  refine ⟨by decide, by decide, by decide⟩

/-- C6, amended: the report's content is deterministic but its order is not;
for a fixed configuration and fixed probe outcomes, any two runs (any two
pairs of key enumeration orders that permute the same keys) emit permutations
of the same findings, with no sorting by service name. -/
theorem c6_report_content_deterministic (services : List (String × ServiceData))
    (probe : String → Option String) (o1 o2 p1 p2 : List String)
    (ho : o1.Perm o2) (hp : p1.Perm p2) :
    (portAnalysisOrdered services o1 p1 probe).Perm (portAnalysisOrdered services o2 p2 probe) :=
  (ho.filterMap _).append (hp.filterMap _)

/-- C6, witness: the amended theorem applied to the two-service configuration
of the counterexample with swapped enumeration orders. -/
theorem c6_report_content_deterministic_witness :
    (portAnalysisOrdered [("b", .ports [.str "8080:80"]), ("a", .ports [.str "9090:90"])]
        [":8080", ":9090"] [":8080", ":9090"] (fun _ => none)).Perm
      (portAnalysisOrdered [("b", .ports [.str "8080:80"]), ("a", .ports [.str "9090:90"])]
        [":9090", ":8080"] [":9090", ":8080"] (fun _ => none)) :=
  c6_report_content_deterministic _ _ _ _ _ _ (by decide) (by decide)

theorem scanPortItem_maps_congr (n : String) (item : PortItem) {st st' : PortScan}
    (hm : st.portMap = st'.portMap) (hh : st.hostPorts = st'.hostPorts) :
    (scanPortItem n st item).portMap = (scanPortItem n st' item).portMap ∧
    (scanPortItem n st item).hostPorts = (scanPortItem n st' item).hostPorts := by
  cases item with
  | nonString => exact ⟨hm, hh⟩
  | str e => cases hp : parsePortEntry e <;> simp [scanPortItem, hp, hm, hh]

theorem scanItems_maps_congr (n : String) (items : List PortItem) :
    ∀ {st st' : PortScan}, st.portMap = st'.portMap → st.hostPorts = st'.hostPorts →
      (items.foldl (scanPortItem n) st).portMap = (items.foldl (scanPortItem n) st').portMap ∧
      (items.foldl (scanPortItem n) st).hostPorts =
        (items.foldl (scanPortItem n) st').hostPorts := by
  induction items with
  | nil => intro st st' hm hh; exact ⟨hm, hh⟩
  | cons i rest ih =>
      intro st st' hm hh
      obtain ⟨hm', hh'⟩ := scanPortItem_maps_congr n i hm hh
      exact ih hm' hh'

theorem scanService_maps_congr (sd : String × ServiceData) {st st' : PortScan}
    (hm : st.portMap = st'.portMap) (hh : st.hostPorts = st'.hostPorts) :
    (scanService st sd).portMap = (scanService st' sd).portMap ∧
    (scanService st sd).hostPorts = (scanService st' sd).hostPorts := by
  obtain ⟨name, data⟩ := sd
  cases data with
  | notMap => exact ⟨hm, hh⟩
  | noPorts => exact ⟨hm, hh⟩
  | portsNotList => exact ⟨hm, hh⟩
  | ports entries => exact scanItems_maps_congr name entries hm hh

theorem scanServices_maps_congr (svcs : List (String × ServiceData)) :
    ∀ {st st' : PortScan}, st.portMap = st'.portMap → st.hostPorts = st'.hostPorts →
      (svcs.foldl scanService st).portMap = (svcs.foldl scanService st').portMap ∧
      (svcs.foldl scanService st).hostPorts = (svcs.foldl scanService st').hostPorts := by
  induction svcs with
  | nil => intro st st' hm hh; exact ⟨hm, hh⟩
  | cons sd rest ih =>
      intro st st' hm hh
      obtain ⟨hm', hh'⟩ := scanService_maps_congr sd hm hh
      exact ih hm' hh'

theorem scanPortItem_malformed (n : String) (st : PortScan) {bad : String}
    (h : (parsePortEntry bad).isOk = false) :
    (scanPortItem n st (.str bad)).portMap = st.portMap ∧
    (scanPortItem n st (.str bad)).hostPorts = st.hostPorts ∧
    ((scanPortItem n st (.str bad)).warnings =
        st.warnings ++ [DoctorWarning.invalidFormat bad n] ∨
      ∃ hp, (scanPortItem n st (.str bad)).warnings =
        st.warnings ++ [DoctorWarning.nonNumericPort hp bad n]) := by
  cases hp : parsePortEntry bad with
  | invalidFormat => simp [scanPortItem, hp]
  | nonNumeric p =>
      refine ⟨by simp [scanPortItem, hp], by simp [scanPortItem, hp], Or.inr ⟨p, ?_⟩⟩
      simp [scanPortItem, hp]
  | ok ip p =>
      rw [hp] at h
      exact absurd h (by simp [PortParse.isOk])

theorem scanPortItem_warnings_extend (n : String) (st : PortScan) (item : PortItem) :
    ∃ ws, (scanPortItem n st item).warnings = st.warnings ++ ws := by
  cases item with
  | nonString => exact ⟨[.entryNotString n], rfl⟩
  | str e =>
      cases hp : parsePortEntry e with
      | invalidFormat => exact ⟨[.invalidFormat e n], by simp [scanPortItem, hp]⟩
      | nonNumeric p => exact ⟨[.nonNumericPort p e n], by simp [scanPortItem, hp]⟩
      | ok ip p => exact ⟨[], by simp [scanPortItem, hp]⟩

theorem scanItems_warnings_extend (n : String) (items : List PortItem) :
    ∀ st : PortScan, ∃ ws, (items.foldl (scanPortItem n) st).warnings = st.warnings ++ ws := by
  induction items with
  | nil => exact fun st => ⟨[], by simp⟩
  | cons i rest ih =>
      intro st
      obtain ⟨ws1, h1⟩ := scanPortItem_warnings_extend n st i
      obtain ⟨ws2, h2⟩ := ih (scanPortItem n st i)
      exact ⟨ws1 ++ ws2, by simp [h2, h1]⟩

theorem scanService_warnings_extend (sd : String × ServiceData) (st : PortScan) :
    ∃ ws, (scanService st sd).warnings = st.warnings ++ ws := by
  obtain ⟨name, data⟩ := sd
  cases data with
  | notMap => exact ⟨_, rfl⟩
  | noPorts => exact ⟨[], by simp [scanService]⟩
  | portsNotList => exact ⟨_, rfl⟩
  | ports entries => exact scanItems_warnings_extend name entries st

theorem scanServices_warnings_extend (svcs : List (String × ServiceData)) :
    ∀ st : PortScan, ∃ ws, (svcs.foldl scanService st).warnings = st.warnings ++ ws := by
  induction svcs with
  | nil => exact fun st => ⟨[], by simp⟩
  | cons sd rest ih =>
      intro st
      obtain ⟨ws1, h1⟩ := scanService_warnings_extend sd st
      obtain ⟨ws2, h2⟩ := ih (scanService st sd)
      exact ⟨ws1 ++ ws2, by simp [h2, h1]⟩

theorem portAnalysis_congr {svA svB : List (String × ServiceData)}
    (probe : String → Option String)
    (hm : (buildPortMap svA).portMap = (buildPortMap svB).portMap)
    (hh : (buildPortMap svA).hostPorts = (buildPortMap svB).hostPorts) :
    portAnalysis svA probe = portAnalysis svB probe := by
  simp only [portAnalysis, portAnalysisOrdered, phase1Findings, phase2Findings, portKeys, hm, hh]

theorem runDoctorChecksM_exit_none (env : DoctorEnv) : (runDoctorChecksM env).exit = none := by
  unfold runDoctorChecksM
  split_ifs <;>
  · cases env.services with
    | none => rfl
    | some svcs => by_cases h : svcs.length > 0 <;> simp [h]

/-- C1: for every listen-address key of the port map, if more than one
service claims it the report contains the internal-conflict finding naming
all claiming services and every finding at that key is an internal-conflict
one (so no host probe is reported for it); if exactly one service claims it,
a host-probe finding for it is present and every finding at that key is a
probe result (so it is not reported as an internal conflict).  In particular
no key is both conflict-reported and host-probed. -/
theorem c1_internal_conflict_exclusivity (services : List (String × ServiceData))
    (probe : String → Option String) (key : String) :
    ((lookupD (buildPortMap services).portMap key []).length > 1 →
      Finding.internalConflict (lookupD (buildPortMap services).hostPorts key "") key
          (lookupD (buildPortMap services).portMap key []) ∈ portAnalysis services probe ∧
      ∀ f ∈ portAnalysis services probe, f.address = key → f.isInternal = true) ∧
    ((lookupD (buildPortMap services).portMap key []).length = 1 →
      (∃ f ∈ portAnalysis services probe, f.isProbe = true ∧ f.address = key) ∧
      ∀ f ∈ portAnalysis services probe, f.address = key → f.isProbe = true) := by
  constructor
  · intro hlen
    have hne : lookupD (buildPortMap services).portMap key [] ≠ [] := by
      intro h
      rw [h] at hlen
      exact absurd hlen (by simp)
    have hk : key ∈ portKeys (buildPortMap services) := mem_keys_of_claimers_ne_nil hne
    constructor
    · exact List.mem_append_left _ (mem_phase1 hk hlen)
    · intro f hf haddr
      rcases List.mem_append.mp hf with h1 | h2
      · obtain ⟨_, _, _, hfeq⟩ := phase1_mem_elim h1
        rw [hfeq]
        rfl
      · obtain ⟨key2, _, hlen2, _, haddr2⟩ := phase2_mem_elim h2
        rw [haddr] at haddr2
        rw [← haddr2] at hlen2
        exact absurd hlen hlen2
  · intro hlen
    have hnot : ¬(lookupD (buildPortMap services).portMap key []).length > 1 := by
      rw [hlen]
      simp
    have hne : lookupD (buildPortMap services).portMap key [] ≠ [] := by
      intro h
      rw [h] at hlen
      exact absurd hlen (by simp)
    have hk : key ∈ portKeys (buildPortMap services) := mem_keys_of_claimers_ne_nil hne
    constructor
    · cases hpk : probe key with
      | some reason =>
          exact ⟨_, List.mem_append_right _ (hostConflict_mem_phase2 hk hnot hpk), rfl, rfl⟩
      | none =>
          exact ⟨_, List.mem_append_right _ (portAvailable_mem_phase2 hk hnot hpk), rfl, rfl⟩
    · intro f hf haddr
      rcases List.mem_append.mp hf with h1 | h2
      · obtain ⟨key1, _, hlen1, hfeq⟩ := phase1_mem_elim h1
        rw [hfeq] at haddr
        have : key1 = key := haddr
        rw [this] at hlen1
        exact absurd hlen1 hnot
      · exact (phase2_mem_elim h2).choose_spec.2.2.1

/-- C1, witness: with `web` and `cache` both claiming `:8080`, the theorem
yields the internal-conflict finding naming both services. -/
theorem c1_internal_conflict_exclusivity_witness :
    Finding.internalConflict "8080" ":8080" ["web", "cache"] ∈
      portAnalysis [("web", .ports [.str "8080:80"]), ("cache", .ports [.str "8080:6379"])]
        (fun _ => none) := by
  have h := (c1_internal_conflict_exclusivity
    [("web", .ports [.str "8080:80"]), ("cache", .ports [.str "8080:6379"])]
    (fun _ => none) ":8080").1 (by decide)
  exact h.1

/-- C5: a malformed port-mapping entry (wrong segment count or non-numeric
host port) anywhere in a service's `ports` list leaves both diagnostic maps
exactly as they would be without it — it contributes no listen-address key —
while adding the corresponding warning; the analysis of every other entry of
the same and other services is unchanged, and the doctor run still returns
normally (never fatal). -/
theorem c5_malformed_entries_skipped (svcs1 svcs2 : List (String × ServiceData))
    (name : String) (pre post : List PortItem) (bad : String)
    (probe : String → Option String)
    (hbad : (parsePortEntry bad).isOk = false) :
    (buildPortMap (svcs1 ++ (name, .ports (pre ++ .str bad :: post)) :: svcs2)).portMap =
      (buildPortMap (svcs1 ++ (name, .ports (pre ++ post)) :: svcs2)).portMap ∧
    (buildPortMap (svcs1 ++ (name, .ports (pre ++ .str bad :: post)) :: svcs2)).hostPorts =
      (buildPortMap (svcs1 ++ (name, .ports (pre ++ post)) :: svcs2)).hostPorts ∧
    (∃ w ∈ (buildPortMap (svcs1 ++ (name, .ports (pre ++ .str bad :: post)) :: svcs2)).warnings,
        w = DoctorWarning.invalidFormat bad name ∨
        ∃ hp, w = DoctorWarning.nonNumericPort hp bad name) ∧
    portAnalysis (svcs1 ++ (name, .ports (pre ++ .str bad :: post)) :: svcs2) probe =
      portAnalysis (svcs1 ++ (name, .ports (pre ++ post)) :: svcs2) probe ∧
    (runDoctorChecksM ⟨.ok, true,
        some (svcs1 ++ (name, .ports (pre ++ .str bad :: post)) :: svcs2), probe⟩).exit =
      none := by
  have hfold : ∀ entries : List PortItem,
      buildPortMap (svcs1 ++ (name, ServiceData.ports entries) :: svcs2) =
        svcs2.foldl scanService (entries.foldl (scanPortItem name)
          (svcs1.foldl scanService ⟨[], [], []⟩)) := by
    intro entries
    simp [buildPortMap, List.foldl_append, scanService]
  set A := svcs1.foldl scanService (⟨[], [], []⟩ : PortScan) with hA
  set B := pre.foldl (scanPortItem name) A with hB
  have hmid : (pre ++ PortItem.str bad :: post).foldl (scanPortItem name) A =
      post.foldl (scanPortItem name) (scanPortItem name B (.str bad)) := by
    simp [List.foldl_append, hB]
  have hgood : (pre ++ post).foldl (scanPortItem name) A =
      post.foldl (scanPortItem name) B := by
    simp [List.foldl_append, hB]
  obtain ⟨hm0, hh0, hw0⟩ := scanPortItem_malformed name B hbad
  obtain ⟨hm1, hh1⟩ := scanItems_maps_congr name post hm0 hh0
  obtain ⟨hm2, hh2⟩ := scanServices_maps_congr svcs2 hm1 hh1
  have hmaps :
      (buildPortMap (svcs1 ++ (name, .ports (pre ++ .str bad :: post)) :: svcs2)).portMap =
        (buildPortMap (svcs1 ++ (name, .ports (pre ++ post)) :: svcs2)).portMap ∧
      (buildPortMap (svcs1 ++ (name, .ports (pre ++ .str bad :: post)) :: svcs2)).hostPorts =
        (buildPortMap (svcs1 ++ (name, .ports (pre ++ post)) :: svcs2)).hostPorts := by
    rw [hfold, hfold, hmid, hgood]
    exact ⟨hm2, hh2⟩
  refine ⟨hmaps.1, hmaps.2, ?_, portAnalysis_congr probe hmaps.1 hmaps.2,
    runDoctorChecksM_exit_none _⟩
  obtain ⟨ws1, hws1⟩ := scanItems_warnings_extend name post (scanPortItem name B (.str bad))
  obtain ⟨ws2, hws2⟩ :=
    scanServices_warnings_extend svcs2 (post.foldl (scanPortItem name)
      (scanPortItem name B (.str bad)))
  have hwmem : ∀ w, (scanPortItem name B (.str bad)).warnings = B.warnings ++ [w] →
      w ∈ (buildPortMap
        (svcs1 ++ (name, .ports (pre ++ .str bad :: post)) :: svcs2)).warnings := by
    intro w hw
    rw [hfold, hmid, hws2, hws1, hw]
    simp
  rcases hw0 with hleft | ⟨hp, hright⟩
  · exact ⟨DoctorWarning.invalidFormat bad name, hwmem _ hleft, Or.inl rfl⟩
  · exact ⟨DoctorWarning.nonNumericPort hp bad name, hwmem _ hright, Or.inr ⟨hp, rfl⟩⟩

/-- C5, witness: a three-colon entry on `web` is skipped with a warning while
the well-formed `cache` entry is still diagnosed. -/
theorem c5_malformed_entries_skipped_witness :
    (buildPortMap [("web", .ports [.str "1:2:3:4"]), ("cache", .ports [.str "8080:6379"])]).portMap =
      (buildPortMap [("web", .ports ([] : List PortItem)), ("cache", .ports [.str "8080:6379"])]).portMap ∧
    ∃ w ∈ (buildPortMap
        [("web", .ports [.str "1:2:3:4"]), ("cache", .ports [.str "8080:6379"])]).warnings,
      w = DoctorWarning.invalidFormat "1:2:3:4" "web" ∨
      ∃ hp, w = DoctorWarning.nonNumericPort hp "1:2:3:4" "web" := by
  have h := c5_malformed_entries_skipped [] [("cache", .ports [.str "8080:6379"])]
    "web" [] [] "1:2:3:4" (fun _ => none) (by decide)
  exact ⟨h.1, h.2.2.1⟩

/-- C9: the doctor run never exits with a nonzero status (its findings are
informational), and whenever the host listen probe for a non-conflicted
listen-address key fails — for any OS-level reason string whatsoever — the
report contains a host-conflict finding for that key. -/
theorem c9_probe_failures_reported (env : DoctorEnv) (svcs : List (String × ServiceData))
    (key reason : String) :
    (runDoctorChecksM env).exit = none ∧
    (env.readResult = .ok → env.unmarshalOk = true → env.services = some svcs →
      svcs.length > 0 →
      (lookupD (buildPortMap svcs).portMap key []).length = 1 →
      env.probe key = some reason →
      Finding.hostConflict (lookupD (buildPortMap svcs).hostPorts key "") key
          ((lookupD (buildPortMap svcs).portMap key []).headD "") ∈
        (runDoctorChecksM env).findings) := by
  refine ⟨runDoctorChecksM_exit_none env, ?_⟩
  intro h1 h2 h3 h4 h5 h6
  have hfind : (runDoctorChecksM env).findings = portAnalysis svcs env.probe := by
    unfold runDoctorChecksM
    rw [if_neg (by simp [h1]), if_neg (by simp [h2]), h3]
    simp [h4]
  rw [hfind]
  have hnot : ¬(lookupD (buildPortMap svcs).portMap key []).length > 1 := by
    rw [h5]
    simp
  have hne : lookupD (buildPortMap svcs).portMap key [] ≠ [] := by
    intro h
    rw [h] at h5
    exact absurd h5 (by simp)
  exact List.mem_append_right _
    (hostConflict_mem_phase2 (mem_keys_of_claimers_ne_nil hne) hnot h6)

/-- C9, witness: a probe failing with a permission-denied reason on `:443`
yields a host-conflict finding for the single claiming service. -/
theorem c9_probe_failures_reported_witness :
    Finding.hostConflict "443" ":443" "web" ∈
      (runDoctorChecksM ⟨.ok, true, some [("web", .ports [.str "443:443"])],
        fun _ => some "permission denied"⟩).findings := by
  exact (c9_probe_failures_reported
    ⟨.ok, true, some [("web", .ports [.str "443:443"])], fun _ => some "permission denied"⟩
    [("web", .ports [.str "443:443"])] ":443" "permission denied").2
    rfl rfl rfl (by decide) (by decide) rfl

/-- C10: listen-address keys compare textually: a mapping with no bind
address yields the key `:port` while an explicit `0.0.0.0` bind yields the
distinct key `0.0.0.0:port` (as on the concrete entries `8080:80` and
`0.0.0.0:8080:80`); consequently a two-service configuration declaring the
wildcard and the explicit form of the same host port produces no internal
conflict, and each of the two keys gets its own host probe. -/
theorem c10_textual_listen_keys (a b e1 e2 hp : String) (probe : String → Option String)
    (h1 : parsePortEntry e1 = .ok "" hp)
    (h2 : parsePortEntry e2 = .ok "0.0.0.0" hp) :
    parsePortEntry "8080:80" = .ok "" "8080" ∧
    parsePortEntry "0.0.0.0:8080:80" = .ok "0.0.0.0" "8080" ∧
    mkListenAddress "" hp ≠ mkListenAddress "0.0.0.0" hp ∧
    (∀ f ∈ portAnalysis [(a, .ports [.str e1]), (b, .ports [.str e2])] probe,
      f.isInternal = false) ∧
    (∃ f ∈ portAnalysis [(a, .ports [.str e1]), (b, .ports [.str e2])] probe,
      f.isProbe = true ∧ f.address = ":" ++ hp) ∧
    (∃ f ∈ portAnalysis [(a, .ports [.str e1]), (b, .ports [.str e2])] probe,
      f.isProbe = true ∧ f.address = "0.0.0.0:" ++ hp) := by
  have hne : ¬(":" ++ hp = "0.0.0.0:" ++ hp) := by
    intro h
    have hl := congrArg String.length h
    rw [String.length_append, String.length_append,
      (by decide : (":" : String).length = 1),
      (by decide : ("0.0.0.0:" : String).length = 8)] at hl
    omega
  have hst : buildPortMap [(a, .ports [.str e1]), (b, .ports [.str e2])] =
      ⟨[(":" ++ hp, [a]), ("0.0.0.0:" ++ hp, [b])],
       [(":" ++ hp, hp), ("0.0.0.0:" ++ hp, hp)], []⟩ := by
    simp [buildPortMap, scanService, scanPortItem, h1, h2, mkListenAddress, addClaim,
      putHostPort, hne]
  refine ⟨by decide, by decide, ?_, ?_⟩
  · simp [mkListenAddress, hne]
  · rcases hpk1 : probe (":" ++ hp) with _ | r1 <;>
      rcases hpk2 : probe ("0.0.0.0:" ++ hp) with _ | r2 <;>
        simp [portAnalysis, portAnalysisOrdered, phase1Findings, phase2Findings, portKeys,
          hst, lookupD, hne, hpk1, hpk2, Finding.isProbe, Finding.isInternal, Finding.address]

/-- C10, witness: the theorem instantiated on the concrete entries
`8080:80` for `web` and `0.0.0.0:8080:80` for `cache`. -/
theorem c10_textual_listen_keys_witness :
    ∃ f ∈ portAnalysis [("web", .ports [.str "8080:80"]), ("cache", .ports [.str "0.0.0.0:8080:80"])]
        (fun _ => none),
      f.isProbe = true ∧ f.address = ":" ++ "8080" := by
  exact (c10_textual_listen_keys "web" "cache" "8080:80" "0.0.0.0:8080:80" "8080"
    (fun _ => none) (by decide) (by decide)).2.2.2.2.1

theorem mkRow_configService (running : List (String × PsEntry)) (name : String) :
    (mkRow running name).configService = name := by
  cases h : lookupA running name <;> simp [mkRow, h]

theorem mkRow_status_running (running : List (String × PsEntry)) (name : String) :
    (mkRow running name).status = "Running" ↔ (lookupA running name).isSome = true := by
  cases h : lookupA running name <;> simp [mkRow, h]

theorem mkRow_not_running (running : List (String × PsEntry)) (name : String)
    (h : lookupA running name = none) :
    mkRow running name = ⟨name, "Not Running", "-", "-", "-", "-", "-", "-"⟩ := by
  simp [mkRow, h]

theorem mkRow_running_details (running : List (String × PsEntry)) (name : String)
    (e : PsEntry) (h : lookupA running name = some e) :
    (mkRow running name).name = e.name ∧ (mkRow running name).psService = e.service ∧
    (mkRow running name).ports = formatPorts e.publishers := by
  simp [mkRow, h]

theorem lookupA_putAssoc {α : Type} (m : List (String × α)) (k key : String) (v : α) :
    lookupA (putAssoc m k v) key = if k = key then some v else lookupA m key := by
  induction m with
  | nil => rfl
  | cons p rest ih =>
      obtain ⟨k', w⟩ := p
      by_cases h1 : k' = k
      · subst h1
        by_cases h2 : k' = key <;> simp [putAssoc, lookupA, h2]
      · by_cases h2 : k' = key
        · subst h2
          have hk : ¬k = k' := fun h => h1 h.symm
          simp [putAssoc, h1, lookupA, hk]
        · simp [putAssoc, h1, lookupA, h2, ih]

theorem feedNames_cons_entry (e : PsEntry) (rest : List PsLine) :
    feedNames (.entry e :: rest) = e.service :: feedNames rest := rfl

theorem feedNames_cons_blank (rest : List PsLine) :
    feedNames (.blank :: rest) = feedNames rest := rfl

theorem feedNames_cons_malformed (rest : List PsLine) :
    feedNames (.malformed :: rest) = feedNames rest := rfl

theorem collectRunning_isSome (feed : List PsLine) :
    ∀ (m : List (String × PsEntry)) (name : String),
      (lookupA (feed.foldl psFoldStep m) name).isSome = true ↔
        (name ≠ "" ∧ name ∈ feedNames feed) ∨ (lookupA m name).isSome = true := by
  induction feed with
  | nil =>
      intro m name
      simp [feedNames]
  | cons l rest ih =>
      intro m name
      cases l with
      | blank => simpa [feedNames_cons_blank, psFoldStep] using ih m name
      | malformed => simpa [feedNames_cons_malformed, psFoldStep] using ih m name
      | entry e =>
          have hstep : (PsLine.entry e :: rest).foldl psFoldStep m =
              rest.foldl psFoldStep (psFoldStep m (.entry e)) := rfl
          rw [hstep, ih, feedNames_cons_entry]
          by_cases he : e.service = ""
          · rw [show psFoldStep m (.entry e) = m from by simp [psFoldStep, he]]
            constructor
            · rintro (⟨hne, hmem⟩ | hx)
              · exact Or.inl ⟨hne, List.mem_cons_of_mem _ hmem⟩
              · exact Or.inr hx
            · rintro (⟨hne, hmem⟩ | hx)
              · rcases List.mem_cons.mp hmem with heq | hmem2
                · exact absurd (heq.trans he) hne
                · exact Or.inl ⟨hne, hmem2⟩
              · exact Or.inr hx
          · rw [show psFoldStep m (.entry e) = putAssoc m e.service e from by
                simp [psFoldStep, he],
              lookupA_putAssoc]
            by_cases hn : e.service = name
            · rw [if_pos hn]
              simp only [Option.isSome_some]
              constructor
              · intro _
                exact Or.inl ⟨hn ▸ he, hn ▸ List.mem_cons_self _ _⟩
              · intro _
                exact Or.inr trivial
            · rw [if_neg hn]
              constructor
              · rintro (⟨hne, hmem⟩ | hx)
                · exact Or.inl ⟨hne, List.mem_cons_of_mem _ hmem⟩
                · exact Or.inr hx
              · rintro (⟨hne, hmem⟩ | hx)
                · rcases List.mem_cons.mp hmem with heq | hmem2
                  · exact absurd heq.symm hn
                  · exact Or.inl ⟨hne, hmem2⟩
                · exact Or.inr hx

theorem collectRunning_mem_feed (feed : List PsLine) :
    ∀ (m : List (String × PsEntry)) (name : String) (e : PsEntry),
      lookupA (feed.foldl psFoldStep m) name = some e →
        (PsLine.entry e ∈ feed ∧ e.service = name) ∨ lookupA m name = some e := by
  induction feed with
  | nil =>
      intro m name e h
      exact Or.inr h
  | cons l rest ih =>
      intro m name e h
      rcases ih (psFoldStep m l) name e h with ⟨hmem, hsvc⟩ | hlook
      · exact Or.inl ⟨List.mem_cons_of_mem _ hmem, hsvc⟩
      · cases l with
        | blank => exact Or.inr hlook
        | malformed => exact Or.inr hlook
        | entry e2 =>
            by_cases he : e2.service = ""
            · rw [show psFoldStep m (.entry e2) = m from by simp [psFoldStep, he]] at hlook
              exact Or.inr hlook
            · rw [show psFoldStep m (.entry e2) = putAssoc m e2.service e2 from by
                  simp [psFoldStep, he],
                lookupA_putAssoc] at hlook
              by_cases hn : e2.service = name
              · rw [if_pos hn] at hlook
                obtain rfl : e2 = e := Option.some_inj.mp hlook
                exact Or.inl ⟨List.mem_cons_self _ _, hn⟩
              · rw [if_neg hn] at hlook
                exact Or.inr hlook

theorem sortNames_perm (l : List String) : (sortNames l).Perm l :=
  List.perm_insertionSort _ l

theorem sortNames_sorted (l : List String) : (sortNames l).Sorted (· ≤ ·) :=
  List.sorted_insertionSort _ l

theorem mem_servicesToDisplay {cfg args : List String} {x : String}
    (h : x ∈ servicesToDisplay cfg args) : x ∈ cfg := by
  unfold servicesToDisplay at h
  split_ifs at h
  · have := List.mem_filter.mp h
    simpa using this.2
  · exact h

/-- C4: with no name filter, for a configuration of N declared services and a
feed whose records name a subset of them, the reconciled report has exactly
one row per declared service, in ascending name order with no duplicates; a
row is `Running` exactly when the feed names its service, `Not Running` rows
carry only placeholder fields, and `Running` rows carry the live details of a
feed record for that service. -/
theorem c4_reconciliation_completeness (cfg : List String) (feed : List PsLine)
    (captureErr : Bool) (hnodup : cfg.Nodup) (hempty : "" ∉ cfg)
    (_hsub : ∀ e : PsEntry, PsLine.entry e ∈ feed → e.service ∈ cfg) :
    (runDockerComposePsM ⟨cfg, [], true, captureErr, feed⟩).rows.length = cfg.length ∧
    ((runDockerComposePsM ⟨cfg, [], true, captureErr, feed⟩).rows.map
      StatusRow.configService).Perm cfg ∧
    ((runDockerComposePsM ⟨cfg, [], true, captureErr, feed⟩).rows.map
      StatusRow.configService).Sorted (· ≤ ·) ∧
    ((runDockerComposePsM ⟨cfg, [], true, captureErr, feed⟩).rows.map
      StatusRow.configService).Nodup ∧
    (∀ r ∈ (runDockerComposePsM ⟨cfg, [], true, captureErr, feed⟩).rows,
      (r.status = "Running" ↔ r.configService ∈ feedNames feed)) ∧
    (∀ r ∈ (runDockerComposePsM ⟨cfg, [], true, captureErr, feed⟩).rows,
      r.status ≠ "Running" →
        r = ⟨r.configService, "Not Running", "-", "-", "-", "-", "-", "-"⟩) ∧
    (∀ r ∈ (runDockerComposePsM ⟨cfg, [], true, captureErr, feed⟩).rows,
      r.status = "Running" →
        ∃ e : PsEntry, PsLine.entry e ∈ feed ∧ e.service = r.configService ∧
          r.name = e.name ∧ r.psService = e.service ∧ r.ports = formatPorts e.publishers) := by
  have hrows : (runDockerComposePsM ⟨cfg, [], true, captureErr, feed⟩).rows =
      (sortNames cfg).map (mkRow (collectRunning feed)) := by
    simp [runDockerComposePsM, servicesToDisplay]
  have hnames : ((sortNames cfg).map (mkRow (collectRunning feed))).map
      StatusRow.configService = sortNames cfg := by
    rw [List.map_map]
    have : ∀ a ∈ sortNames cfg,
        (StatusRow.configService ∘ mkRow (collectRunning feed)) a = id a :=
      fun a _ => mkRow_configService _ a
    rw [List.map_congr_left this, List.map_id]
  have hperm : ((runDockerComposePsM ⟨cfg, [], true, captureErr, feed⟩).rows.map
      StatusRow.configService).Perm cfg := by
    rw [hrows, hnames]
    exact sortNames_perm cfg
  have hlive : ∀ name ∈ cfg, ((lookupA (collectRunning feed) name).isSome = true ↔
      name ∈ feedNames feed) := by
    intro name hname
    rw [show collectRunning feed = feed.foldl psFoldStep [] from rfl,
      collectRunning_isSome feed [] name]
    have hne : name ≠ "" := fun h => hempty (h ▸ hname)
    simp [lookupA, hne]
  refine ⟨?_, hperm, ?_, ?_, ?_, ?_, ?_⟩
  · rw [hrows, List.length_map]
    exact (sortNames_perm cfg).length_eq
  · rw [hrows, hnames]
    exact sortNames_sorted cfg
  · exact hperm.nodup_iff.mpr hnodup
  · intro r hr
    rw [hrows] at hr
    obtain ⟨nm, hnm, rfl⟩ := List.mem_map.mp hr
    have hnmcfg : nm ∈ cfg := (sortNames_perm cfg).mem_iff.mp hnm
    rw [mkRow_configService, mkRow_status_running]
    exact hlive nm hnmcfg
  · intro r hr hns
    rw [hrows] at hr
    obtain ⟨nm, hnm, rfl⟩ := List.mem_map.mp hr
    rw [mkRow_configService]
    cases hl : lookupA (collectRunning feed) nm with
    | none => exact mkRow_not_running _ _ hl
    | some e =>
        exact absurd ((mkRow_status_running _ nm).mpr (by simp [hl])) hns
  · intro r hr hrun
    rw [hrows] at hr
    obtain ⟨nm, hnm, rfl⟩ := List.mem_map.mp hr
    have hsome := (mkRow_status_running _ nm).mp hrun
    cases hl : lookupA (collectRunning feed) nm with
    | none => rw [hl] at hsome; exact absurd hsome (by simp)
    | some e =>
        rcases collectRunning_mem_feed feed [] nm e hl with ⟨hmem, hsvc⟩ | hnil
        · obtain ⟨hn1, hn2, hn3⟩ := mkRow_running_details _ nm e hl
          exact ⟨e, hmem, by rw [mkRow_configService]; exact hsvc, hn1, hn2, hn3⟩
        · exact absurd hnil (by simp [lookupA])

/-- C4, witness: two configured services, a feed naming only `service1`, and
the theorem yields a two-row sorted report. -/
theorem c4_reconciliation_completeness_witness :
    (runDockerComposePsM ⟨["service2", "service1"], [], true, false,
      [.entry ⟨"p_s1_1", "nginx", "nginx -g", "service1", "running", "Up", []⟩]⟩).rows.length =
      2 := by
  have h := (c4_reconciliation_completeness ["service2", "service1"]
    [.entry ⟨"p_s1_1", "nginx", "nginx -g", "service1", "running", "Up", []⟩]
    false (by decide) (by decide)
    (by intro e he
        simp only [List.mem_singleton, PsLine.entry.injEq] at he
        rw [he]
        decide)).1
  simpa using h

/-- C7: when the engine's status listing fails, the `ps` operation still
returns normally, prints the engine-error note, produces exactly the rows it
would have produced from the same (possibly partial) output without the
error, still lists every configured service when no filter is given, and
marks every service without a live record `Not Running`. -/
theorem c7_engine_failure_degrades (env : PsEnv)
    (h1 : env.tempCreateOk = true) (h2 : env.captureErr = true) :
    (runDockerComposePsM env).exit = none ∧
    PsNote.engineQueryError ∈ (runDockerComposePsM env).notes ∧
    (runDockerComposePsM env).rows =
      (runDockerComposePsM ⟨env.cfgNames, env.args, env.tempCreateOk, false, env.feed⟩).rows ∧
    (env.args = [] →
      ((runDockerComposePsM env).rows.map StatusRow.configService).Perm env.cfgNames) ∧
    (∀ r ∈ (runDockerComposePsM env).rows,
      lookupA (collectRunning env.feed) r.configService = none → r.status = "Not Running") := by
  obtain ⟨cfg, args, tempOk, err, feed⟩ := env
  simp only at h1 h2
  subst h1 h2
  refine ⟨by simp [runDockerComposePsM], by simp [runDockerComposePsM], ?_, ?_, ?_⟩
  · simp [runDockerComposePsM]
  · intro hargs
    subst hargs
    simp only [runDockerComposePsM]
    rw [if_neg (by simp)]
    simp only [servicesToDisplay, List.length_nil, gt_iff_lt, lt_self_iff_false, if_false]
    rw [List.map_map]
    have : ∀ a ∈ sortNames cfg,
        (StatusRow.configService ∘ mkRow (collectRunning feed)) a = id a :=
      fun a _ => mkRow_configService _ a
    rw [List.map_congr_left this, List.map_id]
    exact sortNames_perm cfg
  · intro r hr hnone
    simp only [runDockerComposePsM] at hr
    rw [if_neg (by simp)] at hr
    simp only [List.mem_map] at hr
    obtain ⟨nm, hnm, rfl⟩ := hr
    rw [mkRow_configService] at hnone
    rw [mkRow_not_running _ _ hnone]

/-- C7, witness: engine failure with empty output over one configured
service still yields a normal exit and the error note. -/
theorem c7_engine_failure_degrades_witness :
    (runDockerComposePsM ⟨["web"], [], true, true, []⟩).exit = none ∧
    PsNote.engineQueryError ∈ (runDockerComposePsM ⟨["web"], [], true, true, []⟩).notes := by
  have h := c7_engine_failure_degrades ⟨["web"], [], true, true, []⟩ rfl rfl
  exact ⟨h.1, h.2.1⟩

/-- C8: the report never names an unconfigured service — every row's service
name is configured, so a live record naming an unconfigured service yields no
row — and a requested name absent from configuration yields an informational
note, no row, and no error exit. -/
theorem c8_unconfigured_excluded (env : PsEnv) (h1 : env.tempCreateOk = true) :
    (∀ r ∈ (runDockerComposePsM env).rows, r.configService ∈ env.cfgNames) ∧
    (∀ e : PsEntry, PsLine.entry e ∈ env.feed → e.service ∉ env.cfgNames →
      ∀ r ∈ (runDockerComposePsM env).rows, r.configService ≠ e.service) ∧
    (∀ a ∈ env.args, a ∉ env.cfgNames →
      PsNote.notInConfigInfo a ∈ (runDockerComposePsM env).notes ∧
      (∀ r ∈ (runDockerComposePsM env).rows, r.configService ≠ a) ∧
      (runDockerComposePsM env).exit = none) := by
  obtain ⟨cfg, args, tempOk, err, feed⟩ := env
  simp only at h1
  subst h1
  have hrowmem : ∀ r ∈ (runDockerComposePsM ⟨cfg, args, true, err, feed⟩).rows,
      r.configService ∈ cfg := by
    intro r hr
    simp only [runDockerComposePsM] at hr
    rw [if_neg (by simp)] at hr
    simp only [List.mem_map] at hr
    obtain ⟨nm, hnm, rfl⟩ := hr
    rw [mkRow_configService]
    exact mem_servicesToDisplay ((sortNames_perm _).mem_iff.mp hnm)
  refine ⟨hrowmem, ?_, ?_⟩
  · intro e _ hnot r hr heq
    exact hnot (heq ▸ hrowmem r hr)
  · intro a ha hnot
    refine ⟨?_, fun r hr heq => hnot (heq ▸ hrowmem r hr), by simp [runDockerComposePsM]⟩
    simp only [runDockerComposePsM]
    rw [if_neg (by simp)]
    simp only [List.mem_append]
    refine Or.inr ?_
    rw [if_pos (List.length_pos_of_mem ha)]
    simp only [List.mem_filterMap]
    refine ⟨a, ha, ?_⟩
    rw [if_neg (by simpa using hnot)]

/-- C8, witness: `service_extra` is live but unconfigured, so it produces no
row; the requested name `ghost` is unconfigured, so it produces the info note
and no row. -/
theorem c8_unconfigured_excluded_witness :
    PsNote.notInConfigInfo "ghost" ∈ (runDockerComposePsM ⟨["web"], ["ghost"], true, false,
      [.entry ⟨"x1", "alpine", "sleep", "service_extra", "running", "Up", []⟩]⟩).notes := by
  exact ((c8_unconfigured_excluded ⟨["web"], ["ghost"], true, false,
    [.entry ⟨"x1", "alpine", "sleep", "service_extra", "running", "Up", []⟩]⟩ rfl).2.2
    "ghost" (by decide) (by decide)).1

end Upctl
